import Mathlib

/-!
# DCPD Shopify theme: scheduled visibility and infinite scroll

A shallow embedding of the two browser scripts of the theme,
`assets/ms_schedule.js` and `assets/ms_infinite-scroll.js`, and the properties
proved about them.

Conventions of the embedding.

* A JavaScript value that is `null` or a string is an `Option String`.
  Truthiness (`x && ...`, `!x`, `x || null`) is `truthy`: `null` and `''` are
  falsy, every other string is truthy.
* A `Date` is its time value in milliseconds, an `Int`; an Invalid Date
  (`isNaN(d.getTime())`) is `none`.  The host's `new Date(string)` parser is a
  parameter `parseDate : String → Option Int`, and the current instant
  `new Date()` is a parameter `now : Int`.
* Pixel coordinates are integers.
* DOM nodes are identified by a natural number; the children of a node are a
  list of identifiers, and `appendChild` moves a node to the last position.
* The selectors configured on a wrapper are well-formed and the optional hook
  `initializeScrollAnimationTrigger` returns normally, so the only way into the
  `catch` callback of `loadNextPage` is a rejected request or a response whose
  `ok` flag is false.
* The event loop is a list of events applied in order by `step`; the requests a
  session has issued and that have not settled are kept in `inFlight`, and
  every `fetch` call is recorded in `fetched`.
-/

namespace MSTheme

/-! ## JavaScript string helpers -/

/-- Truthiness of a value that is `null` or a string. -/
def truthy : Option String → Bool
  | none => false
  | some s => s != ""

/-- The expression `x || null` for `x` null or a string. -/
def orNull (x : Option String) : Option String :=
  if truthy x then x else none

/-- The characters removed by `String.prototype.trim`: ECMAScript WhiteSpace and
LineTerminator code points. -/
def isJsWhitespace (c : Char) : Bool :=
  let n := c.toNat
  n == 0x09 || n == 0x0A || n == 0x0B || n == 0x0C || n == 0x0D || n == 0x20 ||
  n == 0xA0 || n == 0x1680 || (0x2000 ≤ n && n ≤ 0x200A) || n == 0x2028 ||
  n == 0x2029 || n == 0x202F || n == 0x205F || n == 0x3000 || n == 0xFEFF

/-- Strip leading and trailing whitespace from a list of characters. -/
def trimChars (cs : List Char) : List Char :=
  ((cs.dropWhile isJsWhitespace).reverse.dropWhile isJsWhitespace).reverse

/-- The method `s.trim()`. -/
def jsTrim (s : String) : String := ⟨trimChars s.data⟩

/-- Replace the first space of a list of characters by `T`. -/
def replaceFirstSpaceChars : List Char → List Char
  | [] => []
  | c :: cs => if c = ' ' then 'T' :: cs else c :: replaceFirstSpaceChars cs

/-- The call `s.replace(' ', 'T')`: only the first occurrence is replaced. -/
def replaceFirstSpace (s : String) : String := ⟨replaceFirstSpaceChars s.data⟩

/-- The method `s.startsWith(p)`. -/
def jsStartsWith (s p : String) : Bool := p.data.isPrefixOf s.data

/-! ## `ms_schedule.js` -/

/-- The guard `str && str.trim() !== ''` of `isVisible`. -/
def boundPresent (str : Option String) : Bool :=
  match str with
  | none => false
  | some s => s != "" && jsTrim s != ""

/-- The expression `new Date(str.trim().replace(' ', 'T'))` of `isVisible`. -/
def parseBound (parseDate : String → Option Int) (str : Option String) : Option Int :=
  match str with
  | none => none
  | some s => parseDate (replaceFirstSpace (jsTrim s))

/-- The function `MS_Schedule.isVisible(startStr, endStr)`, evaluated at the instant
`now` with the host date parser `parseDate`. -/
def isVisible (parseDate : String → Option Int) (now : Int)
    (startStr endStr : Option String) : Bool :=
  if boundPresent startStr &&
      (match parseBound parseDate startStr with
        | none => true
        | some start => decide (now < start)) then false
  else if boundPresent endStr &&
      (match parseBound parseDate endStr with
        | none => true
        | some end_ => decide (now > end_)) then false
  else true

/-- The part of a DOM element that `MS_Schedule.check` reads and writes. -/
structure Element where
  /-- whether the element matches `[data-ms-schedule]` -/
  hasSchedule : Bool
  /-- the value of `getAttribute('data-ms-schedule-start')` -/
  scheduleStart : Option String
  /-- the value of `getAttribute('data-ms-schedule-end')` -/
  scheduleEnd : Option String
  /-- the value of `style.display` -/
  display : String
  /-- the value of `getAttribute('aria-hidden')` -/
  ariaHidden : Option String
  deriving DecidableEq, Repr

/-- The body of the loop of `MS_Schedule.check` for one selected element. -/
def checkElement (parseDate : String → Option Int) (now : Int) (el : Element) : Element :=
  let start := orNull el.scheduleStart
  let end_ := orNull el.scheduleEnd
  let visible := isVisible parseDate now start end_
  if !visible then
    { el with display := "none", ariaHidden := some "true" }
  else if el.ariaHidden = some "true" then
    { el with display := "", ariaHidden := none }
  else el

/-- The function `MS_Schedule.check()`: the loop over
`document.querySelectorAll('[data-ms-schedule]')`; the document is the list of
its elements and the elements that do not match are left alone. -/
def check (parseDate : String → Option Int) (now : Int) (doc : List Element) : List Element :=
  doc.map fun el => if el.hasSchedule then checkElement parseDate now el else el

/-- A bound is absent or blank: `null`, empty, or made of whitespace only. -/
def isBlank : Option String → Bool
  | none => true
  | some s => s.data.all isJsWhitespace

/-! ## `ms_infinite-scroll.js` -/

/-- The classic pagination control, the element matched by `.pagination-wrapper`. -/
structure Pagination where
  /-- the value of `style.display` -/
  display : String
  /-- the result of `querySelector('.pagination__item--prev.pagination__item-arrow')`:
  `none` when no element matches, `some h` when one does and `getAttribute('href')`
  is `h` (itself `none` when the attribute is missing) -/
  nextArrow : Option (Option String)
  deriving DecidableEq, Repr

/-- The function `getNextUrlFromPagination(paginationEl)`; `origin` is
`window.location.origin`. -/
def getNextUrlFromPagination (origin : String) (paginationEl : Option Pagination) :
    Option String :=
  match paginationEl with
  | none => none
  | some p =>
    match p.nextArrow with
    | some href =>
      match href with
      | some h => if truthy (some h) && !jsStartsWith h "http" then some (origin ++ h) else some h
      | none => none
    | none => none

/-- The layout values read by `isNearBottom`. -/
structure Geometry where
  /-- the value of `grid.getBoundingClientRect().bottom` -/
  rectBottom : Int
  /-- the value of `window.innerHeight` -/
  innerHeight : Int
  /-- the value of `document.documentElement.clientHeight` -/
  clientHeight : Int
  deriving DecidableEq, Repr

/-- The function `isNearBottom(grid, threshold)`. -/
def isNearBottom (g : Geometry) (threshold : Int) : Bool :=
  let viewportHeight := if g.innerHeight != 0 then g.innerHeight else g.clientHeight
  decide (g.rectBottom - viewportHeight < threshold)

/-- The constant `THRESHOLD` of `initInfiniteScroll`. -/
def THRESHOLD : Int := 800

/-- The value stored in `wrapper._msInfiniteScroll`: the object returned by `noop()`
or the object `{ destroy: destroy }` of a session. -/
inductive Handle where
  | noop
  | session
  deriving DecidableEq, Repr

/-- A wrapper `[data-infinite-scroll]` together with the session attached to it:
the environment, the part of the document the script touches, the variables of the
closure created by `initInfiniteScroll`, and the callbacks and requests of that
session that are pending in the event loop. -/
structure Page where
  /-- the value of `window.location.origin` -/
  origin : String
  /-- whether `typeof initializeScrollAnimationTrigger === 'function'` -/
  hookDefined : Bool
  /-- the value of `wrapper._msInfiniteScroll` -/
  handle : Option Handle
  /-- the result of `wrapper.querySelector(gridSelector)`: `none` when no element
  matches, otherwise the children of the items container, in order -/
  grid : Option (List Nat)
  /-- the result of `wrapper.querySelector('.pagination-wrapper')` -/
  pagination : Option Pagination
  /-- whether `loader.parentNode` is non-null -/
  loaderAttached : Bool
  /-- the value of `loader.style.display` -/
  loaderDisplay : String
  /-- the closure variable `loading` -/
  loading : Bool
  /-- the closure variable `finished` -/
  finished : Bool
  /-- the closure variable `currentNextUrl` -/
  currentNextUrl : Option String
  /-- whether `checkScroll` is registered for `scroll` on `window` -/
  scrollListener : Bool
  /-- whether `checkScroll` is registered for `resize` on `window` -/
  resizeListener : Bool
  /-- the number of `requestAnimationFrame` callbacks of the session not yet run -/
  pendingFrames : Nat
  /-- the URLs of the session's requests that are neither resolved nor rejected -/
  inFlight : List String
  /-- the URLs of all `fetch` calls of the session, oldest first -/
  fetched : List String
  /-- the number of calls of `initializeScrollAnimationTrigger` by the session -/
  hookCalls : Nat
  deriving DecidableEq, Repr

/-- A wrapper no session was ever attached to. -/
def freshPage (origin : String) (hookDefined : Bool) (grid : Option (List Nat))
    (pagination : Option Pagination) : Page :=
  { origin := origin, hookDefined := hookDefined, handle := none, grid := grid,
    pagination := pagination, loaderAttached := false, loaderDisplay := "",
    loading := false, finished := false, currentNextUrl := none,
    scrollListener := false, resizeListener := false, pendingFrames := 0,
    inFlight := [], fetched := [], hookCalls := 0 }

/-- The function `initInfiniteScroll(wrapper)`.  A new closure starts with no request
in flight and no `fetch` call made. -/
def initInfiniteScroll (w : Page) : Page :=
  if w.handle.isSome then w
  else
    match w.grid with
    | none => w
    | some _ =>
      let currentNextUrl := getNextUrlFromPagination w.origin w.pagination
      let w := { w with pagination := w.pagination.map fun (p : Pagination) => { p with display := "none" } }
      if !truthy currentNextUrl then { w with handle := some Handle.noop }
      else
        { w with
          currentNextUrl := currentNextUrl
          loading := false
          finished := false
          loaderAttached := true
          loaderDisplay := "none"
          scrollListener := true
          resizeListener := true
          pendingFrames := 1
          inFlight := []
          fetched := []
          handle := some Handle.session }

/-- The function `loadNextPage()` up to the `fetch` call: the request for
`currentNextUrl` is issued and stays in flight. -/
def loadNextPage (s : Page) : Page :=
  let url := s.currentNextUrl.getD "null"
  { s with
    loading := true
    loaderDisplay := ""
    inFlight := s.inFlight ++ [url]
    fetched := s.fetched ++ [url] }

/-- The function `checkScroll()`, run with the layout `g`. -/
def checkScroll (g : Geometry) (s : Page) : Page :=
  if s.loading || s.finished || !truthy s.currentNextUrl then s
  else if isNearBottom g THRESHOLD then loadNextPage s
  else s

/-- The function `finish()`. -/
def finish (s : Page) : Page :=
  { s with
    finished := true
    scrollListener := false
    resizeListener := false
    loaderAttached := false }

/-- The function `destroy()` of a session. -/
def destroy (s : Page) : Page :=
  { s with
    finished := true
    scrollListener := false
    resizeListener := false
    loaderAttached := false
    pagination := s.pagination.map fun (p : Pagination) => { p with display := "" } }

/-- The method `parent.appendChild(node)` on the list of children of `parent`: the
node leaves the place it had and becomes the last child. -/
def appendChild (children : List Nat) (node : Nat) : List Nat :=
  children.filter (fun c => c != node) ++ [node]

/-- The loop `newItems.forEach(function (item) { fragment.appendChild(item); })` on an
empty fragment. -/
def buildFragment (newItems : List Nat) : List Nat :=
  newItems.foldl appendChild []

/-- The call `grid.appendChild(fragment)`: the children of the fragment are moved
to the end of the container, in order. -/
def appendFragment (children fragment : List Nat) : List Nat :=
  fragment.foldl appendChild children

/-- The document parsed from the body of a response, as `loadNextPage` reads it. -/
structure FetchedDoc where
  /-- the result of `doc.querySelector(gridSelector)`: `none` when no element matches,
  otherwise the node list `fetchedGrid.querySelectorAll(itemSelector)`, in document
  order -/
  fetchedGrid : Option (List Nat)
  /-- the result of `doc.querySelector('.pagination-wrapper')` -/
  fetchedPagination : Option Pagination
  deriving DecidableEq, Repr

/-- The outcome of a `fetch`: the promise rejects, or it resolves with a response
whose `ok` flag and parsed body are given. -/
inductive FetchResult where
  | networkError
  | response (ok : Bool) (doc : FetchedDoc)
  deriving DecidableEq, Repr

/-- The second `then` callback of `loadNextPage`. -/
def onFetchSuccess (doc : FetchedDoc) (s : Page) : Page :=
  let s :=
    match doc.fetchedGrid with
    | some newItems =>
      let fragment := buildFragment newItems
      let s := { s with grid := s.grid.map fun children => appendFragment children fragment }
      if s.hookDefined then { s with hookCalls := s.hookCalls + 1 } else s
    | none => s
  let s := { s with currentNextUrl := getNextUrlFromPagination s.origin doc.fetchedPagination }
  let s := { s with loading := false, loaderDisplay := "none" }
  if !truthy s.currentNextUrl then finish s
  else { s with pendingFrames := s.pendingFrames + 1 }

/-- The `catch` callback of `loadNextPage`. -/
def onFetchError (s : Page) : Page :=
  { s with loading := false, loaderDisplay := "none" }

/-- What the event loop delivers to a session. -/
inductive Event where
  /-- a `scroll` event on `window`, with the layout at that time -/
  | scroll (g : Geometry)
  /-- a `resize` event on `window` -/
  | resize (g : Geometry)
  /-- a pending `requestAnimationFrame` callback runs -/
  | animationFrame (g : Geometry)
  /-- the oldest request in flight settles -/
  | fetchSettled (r : FetchResult)
  /-- a call of `wrapper._msInfiniteScroll.destroy()` -/
  | destroy
  deriving DecidableEq, Repr

/-- One turn of the event loop.  An event that cannot occur in the state (a listener
that is not registered, no pending frame, no request in flight, no handle) leaves
it unchanged. -/
def step (s : Page) : Event → Page
  | Event.scroll g => if s.scrollListener then checkScroll g s else s
  | Event.resize g => if s.resizeListener then checkScroll g s else s
  | Event.animationFrame g =>
    if s.pendingFrames = 0 then s
    else checkScroll g { s with pendingFrames := s.pendingFrames - 1 }
  | Event.fetchSettled r =>
    match s.inFlight with
    | [] => s
    | _ :: rest =>
      let s := { s with inFlight := rest }
      match r with
      | FetchResult.networkError => onFetchError s
      | FetchResult.response ok doc => if !ok then onFetchError s else onFetchSuccess doc s
  | Event.destroy =>
    match s.handle with
    | some Handle.session => destroy s
    | _ => s

/-- A sequence of turns of the event loop. -/
def run (s : Page) (evs : List Event) : Page := evs.foldl step s

/-- The teardown of the mutation observer of `watchProductGridContainer`:
`wrapper._msInfiniteScroll.destroy(); wrapper._msInfiniteScroll = null;` when the
handle is set. -/
def teardown (w : Page) : Page :=
  if w.handle.isSome then { step w Event.destroy with handle := none } else w

/-- The body of the mutation observer callback for a wrapper: teardown, then
`initInfiniteScroll(wrapper)`.  The session fields of the result are those of the new
closure; a request or animation frame that the replaced closure left pending is not
followed any further. -/
def reattach (w : Page) : Page := initInfiniteScroll (teardown w)

/-- A URL is absolute by the test of `getNextUrlFromPagination`: it starts with
`http`. -/
def isAbsoluteUrl (url : String) : Bool := jsStartsWith url "http"

/-- An event is a `fetch` settling with a successful response. -/
def Event.isSuccess : Event → Bool
  | Event.fetchSettled (FetchResult.response true _) => true
  | _ => false

/-- A fetch outcome that takes the `catch` branch: a rejection or a response whose
`ok` flag is false. -/
def FetchResult.isFailure : FetchResult → Bool
  | FetchResult.networkError => true
  | FetchResult.response ok _ => !ok

/-! ## Invariants and sample inputs -/

/-- A parser that knows one date: `2024-01-01T00:00` is the instant `1704067200000`,
every other string is an Invalid Date. -/
def sampleParseDate (s : String) : Option Int :=
  if s = "2024-01-01T00:00" then some 1704067200000 else none

/-- What holds of a session in every state it can reach. -/
structure SessionInv (s : Page) : Prop where
  loading_inFlight : s.loading = true →
    ∃ u, s.currentNextUrl = some u ∧ u ≠ "" ∧ s.inFlight = [u]
  idle_inFlight : s.loading = false → s.inFlight = []
  live : s.handle = some Handle.session → s.finished = false →
    s.scrollListener = true ∧ s.resizeListener = true ∧ s.loaderAttached = true ∧
      truthy s.currentNextUrl = true
  no_session : s.handle ≠ some Handle.session →
    s.loading = false ∧ s.scrollListener = false ∧ s.resizeListener = false ∧
      s.pendingFrames = 0 ∧ s.currentNextUrl = none
  has_pagination : s.handle = some Handle.session → ∃ p, s.pagination = some p

/-- A wrapper with two items and a pagination control whose forward link is
`/collections/x?page=2`. -/
def sampleWrapper : Page :=
  freshPage "https://shop.example" true (some [1, 2])
    (some { display := "", nextArrow := some (some "/collections/x?page=2") })

/-- A layout in which the bottom of the items container is above the bottom of the
viewport. -/
def nearGeometry : Geometry := { rectBottom := 100, innerHeight := 700, clientHeight := 700 }

/-- The session of `sampleWrapper` after its first animation frame: the request for
the second page is in flight. -/
def sampleLoading : Page :=
  run (initInfiniteScroll sampleWrapper) [Event.animationFrame nearGeometry]

/-- A fetched document with two items and no pagination control. -/
def sampleLastDoc : FetchedDoc := { fetchedGrid := some [3, 4], fetchedPagination := none }

/-- A fetched document with two items and a pagination control whose forward link is
`/collections/x?page=3`. -/
def sampleNextDoc : FetchedDoc :=
  { fetchedGrid := some [3, 4]
    fetchedPagination :=
      some { display := "", nextArrow := some (some "/collections/x?page=3") } }

/-- An event is a request settling, with whatever outcome. -/
def Event.isSettled : Event → Bool
  | Event.fetchSettled _ => true
  | _ => false

/-- A session that has finished and has nothing in flight. -/
structure Exhausted (s : Page) : Prop where
  finished : s.finished = true
  idle : s.inFlight = []
  scroll_off : s.scrollListener = false
  resize_off : s.resizeListener = false
  loader_off : s.loaderAttached = false

/-- Before any request has settled: the next-page URL is the one read at
initialisation and the only `fetch` made, if any, is the one in flight. -/
structure FirstInv (u : String) (s : Page) : Prop where
  of_loading : s.loading = true → s.fetched = [u]
  of_idle : s.loading = false → s.fetched = []
  url : truthy s.currentNextUrl = true → s.currentNextUrl = some u

/-- A wrapper on the last page: its pagination control has no forward link. -/
def sampleLastPageWrapper : Page :=
  freshPage "https://shop.example" true (some [1, 2]) (some { display := "", nextArrow := none })

/-! ## Lemmas on the string helpers -/

theorem dropWhile_eq_nil_iff_all (p : Char → Bool) (cs : List Char) :
    cs.dropWhile p = [] ↔ cs.all p = true := by
  induction cs with
  | nil => simp
  | cons c cs ih =>
    by_cases h : p c = true
    · simp [List.dropWhile, h, ih]
    · simp [List.dropWhile, h]

theorem trimChars_eq_nil_iff (cs : List Char) :
    trimChars cs = [] ↔ cs.all isJsWhitespace = true := by
  unfold trimChars
  constructor
  · intro h
    rw [List.reverse_eq_nil_iff] at h
    by_contra hne
    have h1 : cs.dropWhile isJsWhitespace ≠ [] := by
      rw [Ne, dropWhile_eq_nil_iff_all]; exact hne
    obtain ⟨c, rest, hc⟩ := List.exists_cons_of_ne_nil h1
    have hhead : isJsWhitespace c = false := by
      have := List.head_dropWhile_not isJsWhitespace cs h1
      simpa [hc] using this
    rw [hc, dropWhile_eq_nil_iff_all] at h
    simp [List.all_eq_true] at h
    have := h.2
    rw [hhead] at this
    exact Bool.noConfusion this
  · intro h
    have : cs.dropWhile isJsWhitespace = [] := (dropWhile_eq_nil_iff_all _ _).2 h
    simp [this]

theorem boundPresent_eq_not_isBlank (str : Option String) :
    boundPresent str = !isBlank str := by
  cases str with
  | none => rfl
  | some s =>
    simp only [boundPresent, isBlank]
    by_cases hall : s.data.all isJsWhitespace = true
    · have h1 : jsTrim s = "" := by
        unfold jsTrim
        rw [(trimChars_eq_nil_iff s.data).2 hall]
      simp [h1, hall]
    · have h1 : jsTrim s ≠ "" := by
        intro h
        apply hall
        rw [← trimChars_eq_nil_iff]
        have := congrArg String.data h
        simpa [jsTrim] using this
      have h2 : s ≠ "" := by
        intro h
        apply hall
        rw [h]
        rfl
      simp [h1, h2, hall]

/-! ## The visibility predicate -/

/-- C1: when each bound is blank or parses to a valid date, `isVisible` is true
exactly when (the start is blank or `now` is not before it) and (the end is blank or
`now` is not after it), both ends included; and `isVisible(null, null)` is true. -/
theorem isVisible_iff_in_window (parseDate : String → Option Int) (now : Int)
    (startStr endStr : Option String)
    (hs : isBlank startStr = true ∨ ∃ t, parseBound parseDate startStr = some t)
    (he : isBlank endStr = true ∨ ∃ t, parseBound parseDate endStr = some t) :
    (isVisible parseDate now startStr endStr = true ↔
      (isBlank startStr = true ∨ ∃ t, parseBound parseDate startStr = some t ∧ t ≤ now) ∧
      (isBlank endStr = true ∨ ∃ t, parseBound parseDate endStr = some t ∧ now ≤ t)) ∧
    isVisible parseDate now none none = true := by
  refine ⟨?_, by simp [isVisible, boundPresent]⟩
  unfold isVisible
  rw [boundPresent_eq_not_isBlank, boundPresent_eq_not_isBlank]
  cases hbs : isBlank startStr <;> cases hbe : isBlank endStr
  · rw [hbs] at hs; rw [hbe] at he
    obtain ⟨ts, hts⟩ := hs.resolve_left (by simp)
    obtain ⟨te, hte⟩ := he.resolve_left (by simp)
    simp only [hts, hte]
    by_cases h1 : now < ts
    · simp [h1]
    · by_cases h2 : now > te
      · simp [h1, h2]
      · simp [h1, h2]; omega
  · rw [hbs] at hs
    obtain ⟨ts, hts⟩ := hs.resolve_left (by simp)
    simp only [hts]
    by_cases h1 : now < ts
    · simp [h1]
    · simp [h1]; omega
  · rw [hbe] at he
    obtain ⟨te, hte⟩ := he.resolve_left (by simp)
    simp only [hte]
    by_cases h2 : now > te
    · simp [h2]
    · simp [h2]; omega
  · simp

/-- The statement of C1 at a start bound that parses and an absent end bound. -/
theorem isVisible_iff_in_window_witness :
    (isBlank (some " 2024-01-01 00:00 ") = true ∨
        ∃ t, parseBound sampleParseDate (some " 2024-01-01 00:00 ") = some t) ∧
    (isBlank none = true ∨ ∃ t, parseBound sampleParseDate none = some t) ∧
    ((isVisible sampleParseDate 1704067200000 (some " 2024-01-01 00:00 ") none = true ↔
      (isBlank (some " 2024-01-01 00:00 ") = true ∨
        ∃ t, parseBound sampleParseDate (some " 2024-01-01 00:00 ") = some t ∧
          t ≤ 1704067200000) ∧
      (isBlank none = true ∨
        ∃ t, parseBound sampleParseDate none = some t ∧ (1704067200000 : Int) ≤ t)) ∧
    isVisible sampleParseDate 1704067200000 none none = true) :=
  ⟨Or.inr ⟨1704067200000, by decide⟩, Or.inl rfl,
    isVisible_iff_in_window sampleParseDate 1704067200000 (some " 2024-01-01 00:00 ") none
      (Or.inr ⟨1704067200000, by decide⟩) (Or.inl rfl)⟩

/-- C2: a bound that is not blank and does not parse to a valid date makes
`isVisible` false, whatever the other bound is. -/
theorem isVisible_invalid_bound (parseDate : String → Option Int) (now : Int)
    (startStr endStr : Option String)
    (h : (isBlank startStr = false ∧ parseBound parseDate startStr = none) ∨
         (isBlank endStr = false ∧ parseBound parseDate endStr = none)) :
    isVisible parseDate now startStr endStr = false := by
  unfold isVisible
  rw [boundPresent_eq_not_isBlank, boundPresent_eq_not_isBlank]
  rcases h with ⟨hb, hp⟩ | ⟨hb, hp⟩
  · simp [hb, hp]
  · simp [hb, hp]

/-- The statement of C2 at `isVisible("bad-date", null)`. -/
theorem isVisible_invalid_bound_witness :
    ((isBlank (some "bad-date") = false ∧ parseBound sampleParseDate (some "bad-date") = none) ∨
      (isBlank none = false ∧ parseBound sampleParseDate none = none)) ∧
    isVisible sampleParseDate 1704067200000 (some "bad-date") none = false :=
  ⟨Or.inl ⟨by decide, by decide⟩,
    isVisible_invalid_bound sampleParseDate 1704067200000 (some "bad-date") none
      (Or.inl ⟨by decide, by decide⟩)⟩

/-! ## The scan -/

theorem checkElement_idem (parseDate : String → Option Int) (now : Int) (el : Element) :
    checkElement parseDate now (checkElement parseDate now el) =
      checkElement parseDate now el := by
  unfold checkElement
  cases hv : isVisible parseDate now (orNull el.scheduleStart) (orNull el.scheduleEnd)
  · simp [hv]
  · by_cases ha : el.ariaHidden = some "true"
    · simp [hv, ha]
    · simp [hv, ha]

theorem checkElement_hasSchedule (parseDate : String → Option Int) (now : Int) (el : Element) :
    (checkElement parseDate now el).hasSchedule = el.hasSchedule := by
  unfold checkElement
  cases hv : isVisible parseDate now (orNull el.scheduleStart) (orNull el.scheduleEnd)
  · simp [hv]
  · by_cases ha : el.ariaHidden = some "true"
    · simp [hv, ha]
    · simp [hv, ha]

/-- C3: at a fixed instant, running `check` a second time leaves every element, with
its display style and its `aria-hidden` marker, as the first run left it. -/
theorem check_idempotent (parseDate : String → Option Int) (now : Int) (doc : List Element) :
    check parseDate now (check parseDate now doc) = check parseDate now doc := by
  unfold check
  rw [List.map_map]
  apply List.map_congr_left
  intro el _
  simp only [Function.comp]
  by_cases h : el.hasSchedule = true
  · simp [h, checkElement_hasSchedule, checkElement_idem]
  · simp [h]

/-! ## The session invariant -/

theorem truthy_some_iff (u : String) : truthy (some u) = true ↔ u ≠ "" := by
  simp [truthy]

theorem truthy_eq_true_iff (x : Option String) :
    truthy x = true ↔ ∃ u, x = some u ∧ u ≠ "" := by
  cases x with
  | none => simp [truthy]
  | some u => simp [truthy]

theorem getNextUrl_truthy_pagination (origin : String) (p : Option Pagination)
    (h : truthy (getNextUrlFromPagination origin p) = true) : ∃ q, p = some q := by
  cases p with
  | none => simp [getNextUrlFromPagination, truthy] at h
  | some q => exact ⟨q, rfl⟩

theorem sessionInv_init (origin : String) (hookDefined : Bool) (grid : Option (List Nat))
    (pagination : Option Pagination) :
    SessionInv (initInfiniteScroll (freshPage origin hookDefined grid pagination)) := by
  unfold initInfiniteScroll
  cases grid with
  | none => constructor <;> simp [freshPage]
  | some children =>
    by_cases ht : truthy (getNextUrlFromPagination origin pagination) = true
    · obtain ⟨q, hq⟩ := getNextUrl_truthy_pagination origin pagination ht
      subst hq
      constructor <;> simp [freshPage, ht]
    · constructor <;> simp [freshPage, ht]

theorem sessionInv_checkScroll (g : Geometry) (s : Page) (h : SessionInv s) :
    SessionInv (checkScroll g s) := by
  unfold checkScroll
  by_cases hg : (s.loading || s.finished || !truthy s.currentNextUrl) = true
  · simp only [hg, if_true]; exact h
  · rw [if_neg hg]
    by_cases hn : isNearBottom g THRESHOLD = true
    · rw [if_pos hn]
      simp only [Bool.or_eq_true, not_or, Bool.not_eq_true, Bool.not_eq_true'] at hg
      obtain ⟨⟨hl, hf⟩, ht⟩ := hg
      simp only [Bool.not_eq_false] at ht
      obtain ⟨u, hu, hne⟩ := (truthy_eq_true_iff _).1 ht
      have hidle := h.idle_inFlight hl
      constructor
      · intro _
        exact ⟨u, by simp [loadNextPage, hu], hne, by simp [loadNextPage, hu, hidle]⟩
      · intro hc; simp [loadNextPage] at hc
      · intro hh hfin
        simpa [loadNextPage] using h.live hh hfin
      · intro hh
        have h3 := h.no_session hh
        rw [h3.2.2.2.2] at hu
        exact absurd hu (by simp)
      · intro hh
        simpa [loadNextPage] using h.has_pagination hh
    · rw [if_neg hn]; exact h

theorem sessionInv_frame (s : Page) (h : SessionInv s) (hp : s.pendingFrames ≠ 0) :
    SessionInv { s with pendingFrames := s.pendingFrames - 1 } := by
  have hs : s.handle = some Handle.session := by
    by_contra hh
    exact hp (h.no_session hh).2.2.2.1
  constructor
  · exact h.loading_inFlight
  · exact h.idle_inFlight
  · exact h.live
  · intro hh; exact absurd hs hh
  · exact h.has_pagination

theorem sessionInv_onFetchError (s : Page) (u : String) (rest : List String)
    (h : SessionInv s) (hfl : s.inFlight = u :: rest) :
    SessionInv (onFetchError { s with inFlight := rest }) := by
  have hload : s.loading = true := by
    by_contra hl
    have := h.idle_inFlight (by simpa using hl)
    rw [this] at hfl
    exact absurd hfl (by simp)
  obtain ⟨v, hv, hne, hfv⟩ := h.loading_inFlight hload
  have hrest : rest = [] := by
    rw [hfv] at hfl
    simp at hfl
    exact hfl.2
  have hs : s.handle = some Handle.session := by
    by_contra hh
    have := (h.no_session hh).1
    rw [hload] at this
    exact Bool.noConfusion this
  constructor
  · intro hc; simp [onFetchError] at hc
  · intro _; simpa [onFetchError] using hrest
  · intro hh hfin; simpa [onFetchError] using h.live hh hfin
  · intro hh; exact absurd hs hh
  · intro hh; simpa [onFetchError] using h.has_pagination hh

theorem onFetchSuccess_fields (doc : FetchedDoc) (s : Page) :
    (onFetchSuccess doc s).loading = false ∧
    (onFetchSuccess doc s).inFlight = s.inFlight ∧
    (onFetchSuccess doc s).fetched = s.fetched ∧
    (onFetchSuccess doc s).handle = s.handle ∧
    (onFetchSuccess doc s).pagination = s.pagination ∧
    (onFetchSuccess doc s).origin = s.origin ∧
    (onFetchSuccess doc s).hookDefined = s.hookDefined ∧
    (onFetchSuccess doc s).loaderDisplay = "none" ∧
    (onFetchSuccess doc s).currentNextUrl =
      getNextUrlFromPagination s.origin doc.fetchedPagination := by
  unfold onFetchSuccess finish
  cases doc.fetchedGrid <;> cases hk : s.hookDefined <;>
    by_cases ht : truthy (getNextUrlFromPagination s.origin doc.fetchedPagination) = true <;>
    simp [ht, hk]

theorem onFetchSuccess_last (doc : FetchedDoc) (s : Page)
    (ht : truthy (getNextUrlFromPagination s.origin doc.fetchedPagination) = false) :
    (onFetchSuccess doc s).finished = true ∧
    (onFetchSuccess doc s).scrollListener = false ∧
    (onFetchSuccess doc s).resizeListener = false ∧
    (onFetchSuccess doc s).loaderAttached = false ∧
    (onFetchSuccess doc s).pendingFrames = s.pendingFrames := by
  unfold onFetchSuccess finish
  cases doc.fetchedGrid <;> cases hk : s.hookDefined <;> simp [ht, hk]

theorem onFetchSuccess_more (doc : FetchedDoc) (s : Page)
    (ht : truthy (getNextUrlFromPagination s.origin doc.fetchedPagination) = true) :
    (onFetchSuccess doc s).finished = s.finished ∧
    (onFetchSuccess doc s).scrollListener = s.scrollListener ∧
    (onFetchSuccess doc s).resizeListener = s.resizeListener ∧
    (onFetchSuccess doc s).loaderAttached = s.loaderAttached ∧
    (onFetchSuccess doc s).pendingFrames = s.pendingFrames + 1 := by
  unfold onFetchSuccess finish
  cases doc.fetchedGrid <;> cases hk : s.hookDefined <;> simp [ht, hk]

theorem sessionInv_onFetchSuccess (doc : FetchedDoc) (s : Page) (u : String)
    (rest : List String) (h : SessionInv s) (hfl : s.inFlight = u :: rest) :
    SessionInv (onFetchSuccess doc { s with inFlight := rest }) := by
  have hload : s.loading = true := by
    by_contra hl
    have := h.idle_inFlight (by simpa using hl)
    rw [this] at hfl
    exact absurd hfl (by simp)
  obtain ⟨v, _, _, hfv⟩ := h.loading_inFlight hload
  have hrest : rest = [] := by
    rw [hfv] at hfl
    simp at hfl
    exact hfl.2
  have hs : s.handle = some Handle.session := by
    by_contra hh
    have := (h.no_session hh).1
    rw [hload] at this
    exact Bool.noConfusion this
  obtain ⟨hl, hi, _, hh, hp, _, _, _, hc⟩ :=
    onFetchSuccess_fields doc { s with inFlight := rest }
  constructor
  · intro hc2; rw [hl] at hc2; exact Bool.noConfusion hc2
  · intro _; rw [hi]; exact hrest
  · intro _ hfin
    by_cases ht : truthy (getNextUrlFromPagination s.origin doc.fetchedPagination) = true
    · obtain ⟨hf, hsl, hrl, hla, _⟩ := onFetchSuccess_more doc { s with inFlight := rest } ht
      rw [hf] at hfin
      have := h.live hs hfin
      rw [hsl, hrl, hla, hc]
      exact ⟨this.1, this.2.1, this.2.2.1, ht⟩
    · have ht2 : truthy (getNextUrlFromPagination s.origin doc.fetchedPagination) = false := by
        simpa using ht
      have := (onFetchSuccess_last doc { s with inFlight := rest } ht2).1
      rw [this] at hfin
      exact Bool.noConfusion hfin
  · intro hh2; rw [hh] at hh2; exact absurd hs hh2
  · intro _; rw [hp]; exact h.has_pagination hs

theorem sessionInv_destroy (s : Page) (h : SessionInv s)
    (hs : s.handle = some Handle.session) : SessionInv (destroy s) := by
  obtain ⟨q, hq⟩ := h.has_pagination hs
  constructor
  · intro hl; simpa [destroy] using h.loading_inFlight hl
  · intro hl; simpa [destroy] using h.idle_inFlight hl
  · intro _ hfin; simp [destroy] at hfin
  · intro hh; exact absurd hs hh
  · intro _; simp [destroy, hq]

theorem sessionInv_step (s : Page) (e : Event) (h : SessionInv s) : SessionInv (step s e) := by
  cases e with
  | scroll g =>
    simp only [step]
    split
    · exact sessionInv_checkScroll g s h
    · exact h
  | resize g =>
    simp only [step]
    split
    · exact sessionInv_checkScroll g s h
    · exact h
  | animationFrame g =>
    simp only [step]
    split
    · exact h
    · rename_i hp
      exact sessionInv_checkScroll g _ (sessionInv_frame s h hp)
  | fetchSettled r =>
    simp only [step]
    cases hfl : s.inFlight with
    | nil => exact h
    | cons u rest =>
      cases r with
      | networkError => exact sessionInv_onFetchError s u rest h hfl
      | response ok doc =>
        cases ok with
        | false => exact sessionInv_onFetchError s u rest h hfl
        | true => exact sessionInv_onFetchSuccess doc s u rest h hfl
  | destroy =>
    simp only [step]
    split
    · rename_i hs
      exact sessionInv_destroy s h hs
    · exact h

theorem sessionInv_run (s : Page) (evs : List Event) (h : SessionInv s) :
    SessionInv (run s evs) := by
  induction evs generalizing s with
  | nil => exact h
  | cons e evs ih => exact ih (step s e) (sessionInv_step s e h)

theorem sessionInv_reachable (origin : String) (hookDefined : Bool)
    (grid : Option (List Nat)) (pagination : Option Pagination) (evs : List Event) :
    SessionInv (run (initInfiniteScroll (freshPage origin hookDefined grid pagination)) evs) :=
  sessionInv_run _ evs (sessionInv_init origin hookDefined grid pagination)

theorem inFlight_length_le_one (s : Page) (h : SessionInv s) : s.inFlight.length ≤ 1 := by
  cases hl : s.loading with
  | false => simp [h.idle_inFlight hl]
  | true =>
    obtain ⟨u, _, _, hu⟩ := h.loading_inFlight hl
    simp [hu]

theorem checkScroll_fetched (g : Geometry) (s : Page)
    (h : (checkScroll g s).fetched ≠ s.fetched) :
    s.loading = false ∧ s.finished = false ∧ truthy s.currentNextUrl = true := by
  unfold checkScroll at h
  by_cases hg : (s.loading || s.finished || !truthy s.currentNextUrl) = true
  · rw [if_pos hg] at h; exact absurd rfl h
  · simp only [Bool.or_eq_true, not_or, Bool.not_eq_true, Bool.not_eq_true'] at hg
    simp only [Bool.not_eq_false] at hg
    exact ⟨hg.1.1, hg.1.2, hg.2⟩

theorem step_fetched (s : Page) (e : Event) (h : (step s e).fetched ≠ s.fetched) :
    s.loading = false ∧ s.finished = false := by
  cases e with
  | scroll g =>
    simp only [step] at h
    split at h
    · exact ⟨(checkScroll_fetched g s h).1, (checkScroll_fetched g s h).2.1⟩
    · exact absurd rfl h
  | resize g =>
    simp only [step] at h
    split at h
    · exact ⟨(checkScroll_fetched g s h).1, (checkScroll_fetched g s h).2.1⟩
    · exact absurd rfl h
  | animationFrame g =>
    simp only [step] at h
    split at h
    · exact absurd rfl h
    · have := checkScroll_fetched g { s with pendingFrames := s.pendingFrames - 1 } h
      exact ⟨this.1, this.2.1⟩
  | fetchSettled r =>
    exfalso
    apply h
    simp only [step]
    cases s.inFlight with
    | nil => rfl
    | cons u rest =>
      cases r with
      | networkError => rfl
      | response ok doc =>
        cases ok with
        | false => rfl
        | true => exact (onFetchSuccess_fields doc _).2.2.1
  | destroy =>
    exfalso
    apply h
    simp only [step]
    split <;> rfl

/-! ## One request at a time -/

/-- C4: in every state a session reaches from its creation by `initInfiniteScroll`,
under any sequence of scroll, resize, animation-frame, fetch-settled and destroy
events, at most one request is in flight; and a turn that issues a `fetch` starts
from a state whose `loading` flag is false and whose `finished` flag is false. -/
theorem at_most_one_fetch_in_flight (origin : String) (hookDefined : Bool)
    (grid : Option (List Nat)) (pagination : Option Pagination) (evs : List Event) :
    (run (initInfiniteScroll (freshPage origin hookDefined grid pagination)) evs).inFlight.length
      ≤ 1 ∧
    ∀ e : Event,
      (step (run (initInfiniteScroll (freshPage origin hookDefined grid pagination)) evs)
          e).fetched ≠
        (run (initInfiniteScroll (freshPage origin hookDefined grid pagination)) evs).fetched →
      (run (initInfiniteScroll (freshPage origin hookDefined grid pagination)) evs).loading
          = false ∧
      (run (initInfiniteScroll (freshPage origin hookDefined grid pagination)) evs).finished
          = false :=
  ⟨inFlight_length_le_one _ (sessionInv_reachable origin hookDefined grid pagination evs),
    fun e h => step_fetched _ e h⟩

/-! ## Appending the fetched items -/

theorem appendChild_of_not_mem (children : List Nat) (node : Nat) (h : node ∉ children) :
    appendChild children node = children ++ [node] := by
  unfold appendChild
  congr 1
  rw [List.filter_eq_self]
  intro c hc
  simp only [bne_iff_ne, ne_eq]
  intro hcn
  exact h (hcn ▸ hc)

theorem foldl_appendChild_fresh (items : List Nat) :
    ∀ children : List Nat, items.Nodup → (∀ x ∈ items, x ∉ children) →
      items.foldl appendChild children = children ++ items := by
  induction items with
  | nil => intro children _ _; simp
  | cons x xs ih =>
    intro children hnd hfresh
    rw [List.nodup_cons] at hnd
    rw [List.foldl_cons, appendChild_of_not_mem children x (hfresh x (List.mem_cons_self x xs))]
    rw [ih (children ++ [x]) hnd.2]
    · simp
    · intro y hy hmem
      rw [List.mem_append] at hmem
      rcases hmem with hmem | hmem
      · exact hfresh y (List.mem_cons_of_mem x hy) hmem
      · simp only [List.mem_singleton] at hmem
        exact hnd.1 (hmem ▸ hy)

theorem buildFragment_nodup (items : List Nat) (h : items.Nodup) :
    buildFragment items = items := by
  unfold buildFragment
  rw [foldl_appendChild_fresh items [] h (by simp)]
  simp

theorem onFetchSuccess_grid (doc : FetchedDoc) (s : Page) :
    (onFetchSuccess doc s).grid =
      match doc.fetchedGrid with
      | some newItems =>
        s.grid.map fun children => appendFragment children (buildFragment newItems)
      | none => s.grid := by
  unfold onFetchSuccess finish
  cases doc.fetchedGrid <;> cases hk : s.hookDefined <;>
    by_cases ht : truthy (getNextUrlFromPagination s.origin doc.fetchedPagination) = true <;>
    simp [ht, hk]

theorem onFetchSuccess_hookCalls (doc : FetchedDoc) (s : Page) :
    (onFetchSuccess doc s).hookCalls =
      if doc.fetchedGrid.isSome && s.hookDefined then s.hookCalls + 1 else s.hookCalls := by
  unfold onFetchSuccess finish
  cases doc.fetchedGrid <;> cases hk : s.hookDefined <;>
    by_cases ht : truthy (getNextUrlFromPagination s.origin doc.fetchedPagination) = true <;>
    simp [ht, hk]

theorem checkScroll_grid (g : Geometry) (s : Page) : (checkScroll g s).grid = s.grid := by
  unfold checkScroll loadNextPage
  split
  · rfl
  · split <;> rfl

theorem step_grid_of_not_success (s : Page) (e : Event) (h : e.isSuccess = false) :
    (step s e).grid = s.grid := by
  cases e with
  | scroll g => simp only [step]; split; exact checkScroll_grid g s; rfl
  | resize g => simp only [step]; split; exact checkScroll_grid g s; rfl
  | animationFrame g => simp only [step]; split; rfl; exact checkScroll_grid g _
  | fetchSettled r =>
    simp only [step]
    cases s.inFlight with
    | nil => rfl
    | cons u rest =>
      cases r with
      | networkError => rfl
      | response ok doc =>
        cases ok with
        | false => rfl
        | true => simp [Event.isSuccess] at h
  | destroy => simp only [step]; split <;> rfl

/-- C5: when a request in flight settles with a successful response whose parsed
document holds the items `items` inside its items container (distinct nodes, none
of them a child of the current container, as they come from a newly parsed
document), the container then holds its previous children in their order followed
by `items` in their order: every previous child is still there and every fetched
item occurs exactly once.  When the parsed document has no items container the
children are unchanged, and no other event changes them. -/
theorem fetched_items_appended (s : Page) (doc : FetchedDoc) (children items : List Nat)
    (hgrid : s.grid = some children) (hflight : s.inFlight ≠ [])
    (hdoc : doc.fetchedGrid = some items) (hnodup : items.Nodup)
    (hfresh : ∀ x ∈ items, x ∉ children) :
    (step s (Event.fetchSettled (FetchResult.response true doc))).grid
        = some (children ++ items) ∧
    (∀ x ∈ children, x ∈ children ++ items) ∧
    (∀ x ∈ items, (children ++ items).count x = 1) ∧
    (∀ doc2 : FetchedDoc, doc2.fetchedGrid = none →
      (step s (Event.fetchSettled (FetchResult.response true doc2))).grid = s.grid) ∧
    (∀ e : Event, e.isSuccess = false → (step s e).grid = s.grid) := by
  refine ⟨?_, ?_, ?_, ?_, ?_⟩
  · simp only [step]
    cases hfl : s.inFlight with
    | nil => exact absurd hfl hflight
    | cons u rest =>
      simp only [Bool.not_true, Bool.false_eq_true, if_false]
      rw [onFetchSuccess_grid, hdoc]
      simp only [hgrid, Option.map_some']
      rw [buildFragment_nodup items hnodup]
      unfold appendFragment
      rw [foldl_appendChild_fresh items children hnodup hfresh]
  · intro x hx
    exact List.mem_append_left items hx
  · intro x hx
    rw [List.count_append, List.count_eq_zero_of_not_mem (hfresh x hx),
      List.count_eq_one_of_mem hnodup hx]
  · intro doc2 hdoc2
    simp only [step]
    cases s.inFlight with
    | nil => rfl
    | cons u rest =>
      simp only [Bool.not_true, Bool.false_eq_true, if_false]
      rw [onFetchSuccess_grid, hdoc2]
  · intro e he
    exact step_grid_of_not_success s e he

/-- The statement of C5 at the first response received by `sampleLoading`. -/
theorem fetched_items_appended_witness :
    (step sampleLoading (Event.fetchSettled (FetchResult.response true sampleLastDoc))).grid
        = some ([1, 2] ++ [3, 4]) ∧
    (∀ x ∈ [1, 2], x ∈ [1, 2] ++ [3, 4]) ∧
    (∀ x ∈ [3, 4], ([1, 2] ++ [3, 4]).count x = 1) ∧
    (∀ doc2 : FetchedDoc, doc2.fetchedGrid = none →
      (step sampleLoading (Event.fetchSettled (FetchResult.response true doc2))).grid
        = sampleLoading.grid) ∧
    (∀ e : Event, e.isSuccess = false → (step sampleLoading e).grid = sampleLoading.grid) :=
  fetched_items_appended sampleLoading sampleLastDoc [1, 2] [3, 4] (by decide) (by decide)
    (by decide) (by decide) (by decide)

/-! ## Failure of a request -/

theorem checkScroll_idle_near (g : Geometry) (s : Page) (u : String)
    (hl : s.loading = false) (hf : s.finished = false) (hu : s.currentNextUrl = some u)
    (hne : u ≠ "") (hn : isNearBottom g THRESHOLD = true) :
    checkScroll g s = loadNextPage s := by
  unfold checkScroll
  simp [hl, hf, hu, truthy, hne, hn]

/-- C8: when the request of a session that is loading and not finished, with
next-page URL `u`, fails (the promise rejects or the response is not ok), the session
is no longer loading, the loader is hidden, the next-page URL is still `u`, the
session is not finished, both listeners are still registered and nothing is in
flight; a following scroll or resize event near the bottom, and any run of `checkScroll`
near the bottom, issues a `fetch` of `u`. -/
theorem fetch_failure_allows_retry (origin : String) (hookDefined : Bool)
    (grid : Option (List Nat)) (pagination : Option Pagination) (evs : List Event)
    (s : Page) (u : String) (r : FetchResult) (g : Geometry)
    (hs : s = run (initInfiniteScroll (freshPage origin hookDefined grid pagination)) evs)
    (hload : s.loading = true) (hfin : s.finished = false)
    (hurl : s.currentNextUrl = some u) (hfail : r.isFailure = true)
    (hnear : isNearBottom g THRESHOLD = true) :
    (step s (Event.fetchSettled r)).loading = false ∧
    (step s (Event.fetchSettled r)).loaderDisplay = "none" ∧
    (step s (Event.fetchSettled r)).currentNextUrl = some u ∧
    (step s (Event.fetchSettled r)).finished = false ∧
    (step s (Event.fetchSettled r)).scrollListener = true ∧
    (step s (Event.fetchSettled r)).resizeListener = true ∧
    (step s (Event.fetchSettled r)).inFlight = [] ∧
    (step (step s (Event.fetchSettled r)) (Event.scroll g)).fetched = s.fetched ++ [u] ∧
    (step (step s (Event.fetchSettled r)) (Event.scroll g)).inFlight = [u] ∧
    (step (step s (Event.fetchSettled r)) (Event.resize g)).fetched = s.fetched ++ [u] ∧
    (step (step s (Event.fetchSettled r)) (Event.resize g)).inFlight = [u] ∧
    (checkScroll g (step s (Event.fetchSettled r))).fetched = s.fetched ++ [u] := by
  have hinv : SessionInv s := by
    rw [hs]; exact sessionInv_reachable origin hookDefined grid pagination evs
  obtain ⟨v, hv, hne, hfv⟩ := hinv.loading_inFlight hload
  have hvu : v = u := by
    rw [hurl] at hv
    exact (Option.some.inj hv).symm
  subst hvu
  have hsess : s.handle = some Handle.session := by
    by_contra hh
    have := (hinv.no_session hh).1
    rw [hload] at this
    exact Bool.noConfusion this
  obtain ⟨hsl, hrl, _, _⟩ := hinv.live hsess hfin
  have hstep : step s (Event.fetchSettled r) = onFetchError { s with inFlight := [] } := by
    simp only [step, hfv]
    cases r with
    | networkError => rfl
    | response ok doc =>
      cases ok with
      | false => rfl
      | true => simp [FetchResult.isFailure] at hfail
  rw [hstep]
  have hcs : checkScroll g (onFetchError { s with inFlight := [] })
      = loadNextPage (onFetchError { s with inFlight := [] }) :=
    checkScroll_idle_near g _ v rfl hfin hurl hne hnear
  refine ⟨rfl, rfl, hurl, hfin, hsl, hrl, rfl, ?_, ?_, ?_, ?_, ?_⟩
  · simp only [step]
    rw [if_pos (show (onFetchError { s with inFlight := [] }).scrollListener = true from hsl), hcs]
    simp [loadNextPage, onFetchError, hurl]
  · simp only [step]
    rw [if_pos (show (onFetchError { s with inFlight := [] }).scrollListener = true from hsl), hcs]
    simp [loadNextPage, onFetchError, hurl]
  · simp only [step]
    rw [if_pos (show (onFetchError { s with inFlight := [] }).resizeListener = true from hrl), hcs]
    simp [loadNextPage, onFetchError, hurl]
  · simp only [step]
    rw [if_pos (show (onFetchError { s with inFlight := [] }).resizeListener = true from hrl), hcs]
    simp [loadNextPage, onFetchError, hurl]
  · rw [hcs]
    simp [loadNextPage, onFetchError, hurl]

/-- The statement of C8 at `sampleLoading`, for a response with status not ok. -/
theorem fetch_failure_allows_retry_witness :
    (step sampleLoading (Event.fetchSettled (FetchResult.response false sampleLastDoc))).loading
        = false ∧
    (step (step sampleLoading (Event.fetchSettled (FetchResult.response false sampleLastDoc)))
        (Event.scroll nearGeometry)).fetched
      = sampleLoading.fetched ++ ["https://shop.example/collections/x?page=2"] :=
  have h := fetch_failure_allows_retry "https://shop.example" true (some [1, 2])
    (some { display := "", nextArrow := some (some "/collections/x?page=2") })
    [Event.animationFrame nearGeometry] sampleLoading
    "https://shop.example/collections/x?page=2" (FetchResult.response false sampleLastDoc)
    nearGeometry rfl (by decide) (by decide) (by decide) (by decide) (by decide)
  ⟨h.1, h.2.2.2.2.2.2.2.1⟩

/-! ## The last page -/

theorem checkScroll_finished (g : Geometry) (s : Page) (h : s.finished = true) :
    checkScroll g s = s := by
  unfold checkScroll
  simp [h]

theorem exhausted_step (s : Page) (e : Event) (h : Exhausted s) :
    Exhausted (step s e) ∧ (step s e).fetched = s.fetched := by
  cases e with
  | scroll g =>
    have hst : step s (Event.scroll g) = s := by simp only [step, h.scroll_off]; rfl
    rw [hst]; exact ⟨h, rfl⟩
  | resize g =>
    have hst : step s (Event.resize g) = s := by simp only [step, h.resize_off]; rfl
    rw [hst]; exact ⟨h, rfl⟩
  | animationFrame g =>
    simp only [step]
    split
    · exact ⟨h, rfl⟩
    · have hc : checkScroll g { s with pendingFrames := s.pendingFrames - 1 }
          = { s with pendingFrames := s.pendingFrames - 1 } :=
        checkScroll_finished g { s with pendingFrames := s.pendingFrames - 1 } h.finished
      rw [hc]
      exact ⟨⟨h.finished, h.idle, h.scroll_off, h.resize_off, h.loader_off⟩, rfl⟩
  | fetchSettled r =>
    have hst : step s (Event.fetchSettled r) = s := by simp only [step, h.idle]
    rw [hst]; exact ⟨h, rfl⟩
  | destroy =>
    simp only [step]
    split
    · exact ⟨⟨rfl, h.idle, rfl, rfl, rfl⟩, rfl⟩
    · exact ⟨h, rfl⟩

theorem exhausted_run (evs : List Event) :
    ∀ s : Page, Exhausted s → Exhausted (run s evs) ∧ (run s evs).fetched = s.fetched := by
  induction evs with
  | nil => intro s h; exact ⟨h, rfl⟩
  | cons e evs ih =>
    intro s h
    obtain ⟨h1, h2⟩ := exhausted_step s e h
    obtain ⟨h3, h4⟩ := ih (step s e) h1
    exact ⟨h3, h4.trans h2⟩

theorem checkScroll_origin (g : Geometry) (s : Page) : (checkScroll g s).origin = s.origin := by
  unfold checkScroll loadNextPage
  split
  · rfl
  · split <;> rfl

theorem step_origin (s : Page) (e : Event) : (step s e).origin = s.origin := by
  cases e with
  | scroll g => simp only [step]; split; exact checkScroll_origin g s; rfl
  | resize g => simp only [step]; split; exact checkScroll_origin g s; rfl
  | animationFrame g => simp only [step]; split; rfl; exact checkScroll_origin g _
  | fetchSettled r =>
    simp only [step]
    cases s.inFlight with
    | nil => rfl
    | cons u rest =>
      cases r with
      | networkError => rfl
      | response ok doc =>
        cases ok with
        | false => rfl
        | true => exact (onFetchSuccess_fields doc _).2.2.2.2.2.1
  | destroy => simp only [step]; split <;> rfl

theorem run_origin (evs : List Event) : ∀ s : Page, (run s evs).origin = s.origin := by
  induction evs with
  | nil => intro s; rfl
  | cons e evs ih => intro s; exact (ih (step s e)).trans (step_origin s e)

theorem init_origin (w : Page) : (initInfiniteScroll w).origin = w.origin := by
  unfold initInfiniteScroll
  split
  · rfl
  · cases w.grid with
    | none => rfl
    | some children =>
      by_cases ht : truthy (getNextUrlFromPagination w.origin w.pagination) = true
      · simp [ht]
      · simp [ht]

theorem firstInv_init (origin : String) (hookDefined : Bool) (grid : Option (List Nat))
    (pagination : Option Pagination) (u : String)
    (hu : getNextUrlFromPagination origin pagination = some u) :
    FirstInv u (initInfiniteScroll (freshPage origin hookDefined grid pagination)) := by
  unfold initInfiniteScroll
  cases grid with
  | none => constructor <;> simp [freshPage, truthy]
  | some children =>
    by_cases ht : truthy (some u) = true
    · constructor <;> simp [freshPage, ht, hu]
    · constructor
      · simp [freshPage, ht, hu]
      · simp [freshPage, ht, hu]
      · simp [freshPage, ht, hu]; rfl

theorem firstInv_checkScroll (g : Geometry) (s : Page) (u : String) (h : FirstInv u s) :
    FirstInv u (checkScroll g s) := by
  unfold checkScroll
  by_cases hg : (s.loading || s.finished || !truthy s.currentNextUrl) = true
  · simp only [hg, if_true]; exact h
  · rw [if_neg hg]
    by_cases hn : isNearBottom g THRESHOLD = true
    · rw [if_pos hn]
      simp only [Bool.or_eq_true, not_or, Bool.not_eq_true, Bool.not_eq_true'] at hg
      obtain ⟨⟨hl, _⟩, ht⟩ := hg
      simp only [Bool.not_eq_false] at ht
      have hu := h.url ht
      constructor
      · intro _; simp [loadNextPage, h.of_idle hl, hu]
      · intro hc; simp [loadNextPage] at hc
      · intro _; simpa [loadNextPage] using hu
    · rw [if_neg hn]; exact h

theorem firstInv_step (s : Page) (e : Event) (u : String) (h : FirstInv u s)
    (he : e.isSettled = false) : FirstInv u (step s e) := by
  cases e with
  | scroll g => simp only [step]; split; exact firstInv_checkScroll g s u h; exact h
  | resize g => simp only [step]; split; exact firstInv_checkScroll g s u h; exact h
  | animationFrame g =>
    simp only [step]
    split
    · exact h
    · exact firstInv_checkScroll g _ u ⟨h.of_loading, h.of_idle, h.url⟩
  | fetchSettled r => simp [Event.isSettled] at he
  | destroy =>
    simp only [step]
    split
    · exact ⟨h.of_loading, h.of_idle, h.url⟩
    · exact h

theorem firstInv_run (evs : List Event) (u : String) :
    ∀ s : Page, FirstInv u s → (∀ e ∈ evs, e.isSettled = false) → FirstInv u (run s evs) := by
  induction evs with
  | nil => intro s h _; exact h
  | cons e evs ih =>
    intro s h hall
    exact ih (step s e) (firstInv_step s e u h (hall e (List.mem_cons_self e evs)))
      (fun e2 he2 => hall e2 (List.mem_cons_of_mem e he2))

/-- C9: when the request in flight of a session settles with a successful response
whose document has no next-page link, the session is finished, both listeners are
removed, the loader is removed and nothing is in flight; after any later sequence of
events the list of `fetch` calls is what it was, the session is still finished and
nothing is in flight.  If no request had settled before (the document is the answer
to the first request), the session made exactly one `fetch` in total, of the URL read
from the pagination control at initialisation. -/
theorem last_page_exhausts_session (origin : String) (hookDefined : Bool)
    (grid : Option (List Nat)) (pagination : Option Pagination) (pre : List Event)
    (s : Page) (doc : FetchedDoc)
    (hs : s = run (initInfiniteScroll (freshPage origin hookDefined grid pagination)) pre)
    (hflight : s.inFlight ≠ [])
    (hlast : truthy (getNextUrlFromPagination origin doc.fetchedPagination) = false) :
    (step s (Event.fetchSettled (FetchResult.response true doc))).finished = true ∧
    (step s (Event.fetchSettled (FetchResult.response true doc))).scrollListener = false ∧
    (step s (Event.fetchSettled (FetchResult.response true doc))).resizeListener = false ∧
    (step s (Event.fetchSettled (FetchResult.response true doc))).loaderAttached = false ∧
    (step s (Event.fetchSettled (FetchResult.response true doc))).inFlight = [] ∧
    (∀ post : List Event,
      (run (step s (Event.fetchSettled (FetchResult.response true doc))) post).fetched
          = s.fetched ∧
      (run (step s (Event.fetchSettled (FetchResult.response true doc))) post).finished
          = true ∧
      (run (step s (Event.fetchSettled (FetchResult.response true doc))) post).inFlight
          = []) ∧
    (∀ u : String, getNextUrlFromPagination origin pagination = some u →
      (∀ e ∈ pre, e.isSettled = false) →
      ∀ post : List Event,
        (run (step s (Event.fetchSettled (FetchResult.response true doc))) post).fetched
          = [u]) := by
  have hinv : SessionInv s := by
    rw [hs]; exact sessionInv_reachable origin hookDefined grid pagination pre
  have horigin : s.origin = origin := by
    rw [hs, run_origin, init_origin]; rfl
  have hload : s.loading = true := by
    by_contra hl
    exact hflight (hinv.idle_inFlight (by simpa using hl))
  obtain ⟨v, _, _, hfv⟩ := hinv.loading_inFlight hload
  have hstep : step s (Event.fetchSettled (FetchResult.response true doc))
      = onFetchSuccess doc { s with inFlight := [] } := by
    simp only [step, hfv]
    rfl
  have hlast2 : truthy (getNextUrlFromPagination
      ({ s with inFlight := [] } : Page).origin doc.fetchedPagination) = false := by
    rw [← horigin] at hlast; exact hlast
  obtain ⟨hf, hsl, hrl, hla, _⟩ := onFetchSuccess_last doc { s with inFlight := [] } hlast2
  obtain ⟨_, hi, hfe, _⟩ := onFetchSuccess_fields doc { s with inFlight := [] }
  have hex : Exhausted (step s (Event.fetchSettled (FetchResult.response true doc))) := by
    rw [hstep]; exact ⟨hf, hi, hsl, hrl, hla⟩
  have hfetched : (step s (Event.fetchSettled (FetchResult.response true doc))).fetched
      = s.fetched := by
    rw [hstep]; exact hfe
  refine ⟨hex.finished, hex.scroll_off, hex.resize_off, hex.loader_off, hex.idle, ?_, ?_⟩
  · intro post
    obtain ⟨h1, h2⟩ := exhausted_run post _ hex
    exact ⟨h2.trans hfetched, h1.finished, h1.idle⟩
  · intro u hu hpre post
    obtain ⟨_, h2⟩ := exhausted_run post _ hex
    have hfirst : FirstInv u s := by
      rw [hs]
      exact firstInv_run pre u _ (firstInv_init origin hookDefined grid pagination u hu) hpre
    rw [h2, hfetched]
    exact hfirst.of_loading hload

/-- The statement of C9 for the session of `sampleWrapper`, whose next-page URL is
`/collections/x?page=2`, when the fetched document has no pagination control. -/
theorem last_page_exhausts_session_witness :
    (step sampleLoading (Event.fetchSettled (FetchResult.response true sampleLastDoc))).finished
        = true ∧
    (step sampleLoading
        (Event.fetchSettled (FetchResult.response true sampleLastDoc))).scrollListener
        = false ∧
    (step sampleLoading
        (Event.fetchSettled (FetchResult.response true sampleLastDoc))).resizeListener
        = false ∧
    (step sampleLoading
        (Event.fetchSettled (FetchResult.response true sampleLastDoc))).loaderAttached
        = false ∧
    ∀ post : List Event,
      (run (step sampleLoading (Event.fetchSettled (FetchResult.response true sampleLastDoc)))
          post).fetched
        = ["https://shop.example/collections/x?page=2"] :=
  have h := last_page_exhausts_session "https://shop.example" true (some [1, 2])
    (some { display := "", nextArrow := some (some "/collections/x?page=2") })
    [Event.animationFrame nearGeometry] sampleLoading sampleLastDoc rfl (by decide) (by decide)
  ⟨h.1, h.2.1, h.2.2.1, h.2.2.2.1,
    h.2.2.2.2.2.2 "https://shop.example/collections/x?page=2" (by decide) (by decide)⟩

/-! ## A response that arrives after `destroy` -/

/-- C7 as stated fails: `sampleLoading` is destroyed while its request is in flight,
and the response that arrives afterwards still appends the two fetched items to the
items container and still calls the animation hook. -/
theorem late_response_ignored_counterexample :
    (step sampleLoading Event.destroy).finished = true ∧
    (step sampleLoading Event.destroy).inFlight
      = ["https://shop.example/collections/x?page=2"] ∧
    (step sampleLoading Event.destroy).grid = some [1, 2] ∧
    (step sampleLoading Event.destroy).hookCalls = 0 ∧
    (step (step sampleLoading Event.destroy)
      (Event.fetchSettled (FetchResult.response true sampleLastDoc))).grid
      = some [1, 2, 3, 4] ∧
    (step (step sampleLoading Event.destroy)
      (Event.fetchSettled (FetchResult.response true sampleLastDoc))).hookCalls = 1 := by
  decide

theorem finished_step (s : Page) (e : Event) (hf : s.finished = true)
    (hsl : s.scrollListener = false) (hrl : s.resizeListener = false) :
    (step s e).finished = true ∧ (step s e).scrollListener = false ∧
      (step s e).resizeListener = false ∧ (step s e).fetched = s.fetched := by
  cases e with
  | scroll g =>
    have hst : step s (Event.scroll g) = s := by simp only [step, hsl]; rfl
    rw [hst]; exact ⟨hf, hsl, hrl, rfl⟩
  | resize g =>
    have hst : step s (Event.resize g) = s := by simp only [step, hrl]; rfl
    rw [hst]; exact ⟨hf, hsl, hrl, rfl⟩
  | animationFrame g =>
    simp only [step]
    split
    · exact ⟨hf, hsl, hrl, rfl⟩
    · have hc : checkScroll g { s with pendingFrames := s.pendingFrames - 1 }
          = { s with pendingFrames := s.pendingFrames - 1 } :=
        checkScroll_finished g { s with pendingFrames := s.pendingFrames - 1 } hf
      rw [hc]
      exact ⟨hf, hsl, hrl, rfl⟩
  | fetchSettled r =>
    simp only [step]
    cases s.inFlight with
    | nil => exact ⟨hf, hsl, hrl, rfl⟩
    | cons u rest =>
      cases r with
      | networkError => exact ⟨hf, hsl, hrl, rfl⟩
      | response ok doc =>
        cases ok with
        | false => exact ⟨hf, hsl, hrl, rfl⟩
        | true =>
          simp only [Bool.not_true, Bool.false_eq_true, if_false]
          have hfe := (onFetchSuccess_fields doc { s with inFlight := rest }).2.2.1
          by_cases ht : truthy (getNextUrlFromPagination
              ({ s with inFlight := rest } : Page).origin doc.fetchedPagination) = true
          · obtain ⟨h1, h2, h3, _⟩ := onFetchSuccess_more doc { s with inFlight := rest } ht
            exact ⟨h1.trans hf, h2.trans hsl, h3.trans hrl, hfe⟩
          · obtain ⟨h1, h2, h3, _⟩ :=
              onFetchSuccess_last doc { s with inFlight := rest } (by simpa using ht)
            exact ⟨h1, h2, h3, hfe⟩
  | destroy =>
    simp only [step]
    split
    · exact ⟨rfl, rfl, rfl, rfl⟩
    · exact ⟨hf, hsl, hrl, rfl⟩

theorem finished_run (evs : List Event) :
    ∀ s : Page, s.finished = true → s.scrollListener = false → s.resizeListener = false →
      (run s evs).finished = true ∧ (run s evs).scrollListener = false ∧
        (run s evs).resizeListener = false ∧ (run s evs).fetched = s.fetched := by
  induction evs with
  | nil => intro s hf hsl hrl; exact ⟨hf, hsl, hrl, rfl⟩
  | cons e evs ih =>
    intro s hf hsl hrl
    obtain ⟨h1, h2, h3, h4⟩ := finished_step s e hf hsl hrl
    obtain ⟨k1, k2, k3, k4⟩ := ih (step s e) h1 h2 h3
    exact ⟨k1, k2, k3, k4.trans h4⟩

/-- C7 amended: when a session is destroyed while a request is in flight and the
request then settles with a successful response whose document holds the items
`items` in its items container, the continuation runs all the same: the items are
appended to the session's items container and the animation hook is called when it
is defined.  What `destroy` does guarantee is that the session stays finished, its
listeners stay removed, and no new `fetch` is issued: this holds right after the late
response, after every sequence of events that follows the late response (the
animation frame it queues included), and after every sequence of events that follows
`destroy`. -/
theorem late_response_still_applied (s : Page) (doc : FetchedDoc) (children items : List Nat)
    (hsession : s.handle = some Handle.session) (hflight : s.inFlight ≠ [])
    (hgrid : s.grid = some children) (hdoc : doc.fetchedGrid = some items)
    (hnodup : items.Nodup) (hfresh : ∀ x ∈ items, x ∉ children) :
    (step (step s Event.destroy) (Event.fetchSettled (FetchResult.response true doc))).grid
      = some (children ++ items) ∧
    (step (step s Event.destroy) (Event.fetchSettled (FetchResult.response true doc))).hookCalls
      = (if s.hookDefined then s.hookCalls + 1 else s.hookCalls) ∧
    (step (step s Event.destroy) (Event.fetchSettled (FetchResult.response true doc))).finished
      = true ∧
    (step (step s Event.destroy)
      (Event.fetchSettled (FetchResult.response true doc))).scrollListener = false ∧
    (step (step s Event.destroy)
      (Event.fetchSettled (FetchResult.response true doc))).resizeListener = false ∧
    (step (step s Event.destroy) (Event.fetchSettled (FetchResult.response true doc))).fetched
      = s.fetched ∧
    (∀ post : List Event,
      (run (step (step s Event.destroy) (Event.fetchSettled (FetchResult.response true doc)))
          post).finished = true ∧
      (run (step (step s Event.destroy) (Event.fetchSettled (FetchResult.response true doc)))
          post).scrollListener = false ∧
      (run (step (step s Event.destroy) (Event.fetchSettled (FetchResult.response true doc)))
          post).resizeListener = false ∧
      (run (step (step s Event.destroy) (Event.fetchSettled (FetchResult.response true doc)))
          post).fetched = s.fetched) ∧
    (∀ evs : List Event,
      (run (step s Event.destroy) evs).finished = true ∧
      (run (step s Event.destroy) evs).scrollListener = false ∧
      (run (step s Event.destroy) evs).resizeListener = false ∧
      (run (step s Event.destroy) evs).fetched = s.fetched) := by
  have hd : step s Event.destroy = destroy s := by
    simp only [step, hsession]
  obtain ⟨u, rest, hfl⟩ := List.exists_cons_of_ne_nil hflight
  have hstep : step (destroy s) (Event.fetchSettled (FetchResult.response true doc))
      = onFetchSuccess doc { destroy s with inFlight := rest } := by
    have : (destroy s).inFlight = u :: rest := hfl
    simp only [step, this]
    rfl
  have hlate := finished_step (destroy s) (Event.fetchSettled (FetchResult.response true doc))
    rfl rfl rfl
  rw [hd]
  refine ⟨?_, ?_, hlate.1, hlate.2.1, hlate.2.2.1, hlate.2.2.2, ?_, ?_⟩
  · rw [hstep, onFetchSuccess_grid, hdoc]
    simp only [destroy, hgrid, Option.map_some']
    rw [buildFragment_nodup items hnodup]
    unfold appendFragment
    rw [foldl_appendChild_fresh items children hnodup hfresh]
  · rw [hstep, onFetchSuccess_hookCalls, hdoc]
    simp [destroy]
  · intro post
    obtain ⟨k1, k2, k3, k4⟩ := finished_run post _ hlate.1 hlate.2.1 hlate.2.2.1
    exact ⟨k1, k2, k3, k4.trans hlate.2.2.2⟩
  · intro evs
    exact finished_run evs (destroy s) rfl rfl rfl

/-- The statement of the amended C7 at `sampleLoading`, for a late response that
carries a link to a third page: the items are appended and the hook is called, and
the animation frame queued by the response, followed by a scroll near the bottom,
issues no `fetch` of the third page. -/
theorem late_response_still_applied_witness :
    (step (step sampleLoading Event.destroy)
      (Event.fetchSettled (FetchResult.response true sampleNextDoc))).grid
      = some ([1, 2] ++ [3, 4]) ∧
    (step (step sampleLoading Event.destroy)
      (Event.fetchSettled (FetchResult.response true sampleNextDoc))).hookCalls
      = (if sampleLoading.hookDefined then sampleLoading.hookCalls + 1
          else sampleLoading.hookCalls) ∧
    (step (step sampleLoading Event.destroy)
      (Event.fetchSettled (FetchResult.response true sampleNextDoc))).currentNextUrl
      = some "https://shop.example/collections/x?page=3" ∧
    (run (step (step sampleLoading Event.destroy)
        (Event.fetchSettled (FetchResult.response true sampleNextDoc)))
      [Event.animationFrame nearGeometry, Event.scroll nearGeometry]).finished = true ∧
    (run (step (step sampleLoading Event.destroy)
        (Event.fetchSettled (FetchResult.response true sampleNextDoc)))
      [Event.animationFrame nearGeometry, Event.scroll nearGeometry]).fetched
      = sampleLoading.fetched :=
  have h := late_response_still_applied sampleLoading sampleNextDoc [1, 2] [3, 4] (by decide)
    (by decide) (by decide) (by decide) (by decide) (by decide)
  have hpost := h.2.2.2.2.2.2.1 [Event.animationFrame nearGeometry, Event.scroll nearGeometry]
  ⟨h.1, h.2.1, by decide, hpost.1, hpost.2.2.2⟩

/-! ## Teardown and the pagination control -/

/-- C6 on a wrapper whose pagination control has no forward link: `initInfiniteScroll`
hides the control and stores the `noop()` handle; the teardown through that handle
leaves the control hidden (`display` is still `none`), and re-attaching hides it
again without it ever having been shown. -/
theorem noop_teardown_leaves_pagination_hidden :
    (initInfiniteScroll sampleLastPageWrapper).handle = some Handle.noop ∧
    (initInfiniteScroll sampleLastPageWrapper).pagination
      = some { display := "none", nextArrow := none } ∧
    (teardown (initInfiniteScroll sampleLastPageWrapper)).handle = none ∧
    (teardown (initInfiniteScroll sampleLastPageWrapper)).pagination
      = some { display := "none", nextArrow := none } ∧
    (reattach (initInfiniteScroll sampleLastPageWrapper)).pagination
      = some { display := "none", nextArrow := none } := by
  decide

/-- For a session that has a next page, in any state it reaches, the teardown shows
the pagination control again and re-attaching hides it. -/
theorem session_teardown_restores_pagination (origin : String) (hookDefined : Bool)
    (grid : Option (List Nat)) (pagination : Option Pagination) (evs : List Event)
    (s : Page)
    (hs : s = run (initInfiniteScroll (freshPage origin hookDefined grid pagination)) evs)
    (hsession : s.handle = some Handle.session) :
    ∃ p : Pagination, s.pagination = some p ∧
      (teardown s).pagination = some { p with display := "" } ∧
      (teardown s).handle = none := by
  have hinv : SessionInv s := by
    rw [hs]; exact sessionInv_reachable origin hookDefined grid pagination evs
  obtain ⟨p, hp⟩ := hinv.has_pagination hsession
  refine ⟨p, hp, ?_, ?_⟩
  · simp [teardown, step, hsession, destroy, hp]
  · simp [teardown, hsession]

/-! ## The next-page URL -/

theorem jsStartsWith_append (a b p : String) (h : jsStartsWith a p = true) :
    jsStartsWith (a ++ b) p = true := by
  unfold jsStartsWith at *
  rw [List.isPrefixOf_iff_prefix] at *
  rw [String.data_append]
  exact h.trans (List.prefix_append a.data b.data)

/-- C10 as stated fails: for a forward link whose `href` attribute is the empty
string the function returns the empty string, which is not `null` and is not an
absolute URL. -/
theorem getNextUrl_absolute_counterexample :
    getNextUrlFromPagination "https://shop.example"
        (some { display := "", nextArrow := some (some "") }) = some "" ∧
    isAbsoluteUrl "" = false := by
  decide

/-- C10 amended: for a page origin that starts with `http`, the function returns
`null`, the empty string, or a string that starts with `http`.  It returns `null`
when the control is absent, has no forward link, or the link has no `href`; the
empty string when the `href` is empty; the `href` itself when it starts with `http`;
and the origin followed by the `href` otherwise. -/
theorem getNextUrl_null_empty_or_absolute (origin : String) (paginationEl : Option Pagination)
    (horigin : jsStartsWith origin "http" = true) :
    (getNextUrlFromPagination origin paginationEl = none ∨
      getNextUrlFromPagination origin paginationEl = some "" ∨
      ∃ url, getNextUrlFromPagination origin paginationEl = some url ∧
        isAbsoluteUrl url = true) ∧
    (paginationEl = none → getNextUrlFromPagination origin paginationEl = none) ∧
    (∀ p, paginationEl = some p → p.nextArrow = none →
      getNextUrlFromPagination origin paginationEl = none) ∧
    (∀ p, paginationEl = some p → p.nextArrow = some none →
      getNextUrlFromPagination origin paginationEl = none) ∧
    (∀ p, paginationEl = some p → p.nextArrow = some (some "") →
      getNextUrlFromPagination origin paginationEl = some "") ∧
    (∀ p href, paginationEl = some p → p.nextArrow = some (some href) →
      isAbsoluteUrl href = true →
      getNextUrlFromPagination origin paginationEl = some href) ∧
    (∀ p href, paginationEl = some p → p.nextArrow = some (some href) →
      href ≠ "" → isAbsoluteUrl href = false →
      getNextUrlFromPagination origin paginationEl = some (origin ++ href)) := by
  have habs : ∀ p href, paginationEl = some p → p.nextArrow = some (some href) →
      isAbsoluteUrl href = true →
      getNextUrlFromPagination origin paginationEl = some href := by
    intro p href hp ha habs
    unfold isAbsoluteUrl at habs
    simp [getNextUrlFromPagination, hp, ha, habs]
  have hrel : ∀ p href, paginationEl = some p → p.nextArrow = some (some href) →
      href ≠ "" → isAbsoluteUrl href = false →
      getNextUrlFromPagination origin paginationEl = some (origin ++ href) := by
    intro p href hp ha hne hrel
    unfold isAbsoluteUrl at hrel
    simp [getNextUrlFromPagination, hp, ha, hrel, truthy, hne]
  have hempty : ∀ p, paginationEl = some p → p.nextArrow = some (some "") →
      getNextUrlFromPagination origin paginationEl = some "" := by
    intro p hp ha
    simp [getNextUrlFromPagination, hp, ha, truthy]
  refine ⟨?_, ?_, ?_, ?_, hempty, habs, hrel⟩
  · cases hp : paginationEl with
    | none => left; rfl
    | some p =>
      cases ha : p.nextArrow with
      | none => left; simp [getNextUrlFromPagination, ha]
      | some href =>
        cases href with
        | none => left; simp [getNextUrlFromPagination, ha]
        | some h =>
          right
          by_cases hne : h = ""
          · left; subst hne; rw [← hp]; exact hempty p hp ha
          · right
            cases habsh : isAbsoluteUrl h with
            | true => exact ⟨h, by rw [← hp]; exact habs p h hp ha habsh, habsh⟩
            | false =>
              refine ⟨origin ++ h, by rw [← hp]; exact hrel p h hp ha hne habsh, ?_⟩
              exact jsStartsWith_append origin h "http" horigin
  · intro hp; rw [hp]; rfl
  · intro p hp ha; simp [getNextUrlFromPagination, hp, ha]
  · intro p hp ha; simp [getNextUrlFromPagination, hp, ha]

/-- The statement of the amended C10 at the origin `https://shop.example` and a forward
link to `/collections/x?page=2`. -/
theorem getNextUrl_null_empty_or_absolute_witness :
    getNextUrlFromPagination "https://shop.example"
        (some { display := "", nextArrow := some (some "/collections/x?page=2") })
      = some ("https://shop.example" ++ "/collections/x?page=2") :=
  (getNextUrl_null_empty_or_absolute "https://shop.example"
    (some { display := "", nextArrow := some (some "/collections/x?page=2") })
    (by decide)).2.2.2.2.2.2
    { display := "", nextArrow := some (some "/collections/x?page=2") }
    "/collections/x?page=2" rfl rfl (by decide) (by decide)

end MSTheme
